import Mathlib

/-!
Verification of the commit-message checking bears (`bears/vcs/CommitBear.py`,
`bears/vcs/git/GitCommitBear.py`, `bears/vcs/mercurial/HgCommitBear.py`).

The Python code drives everything through the `re` module.  We embed the
regular expressions that the code builds as data for a small backtracking
matcher (`RE` / `mrun`) whose preference order (leftmost, greedy, first
alternative first) mirrors CPython's `re` engine on the constructs the code
uses: character classes, literals, concatenation, alternation `|`, greedy
`*`, `+` and `?`, negative lookahead `(?!...)` and one capture group.
Token-shape patterns whose backtracking behaviour is simple enough are also
translated directly into executable functions, which the universally
quantified claims are proved about.

Strings are handled as `List Char` (the `String.data` field); all inputs in
the claims are ASCII, for which the ASCII readings of `\s`, `\w`, `\d` and
`str.lower()` below agree with Python.
-/

set_option maxRecDepth 200000

/-- Python `\s` (ASCII range): space, tab, newline, carriage return,
vertical tab, form feed. -/
def pySpace (c : Char) : Bool :=
  c.toNat = 32 || c.toNat = 9 || c.toNat = 10 || c.toNat = 13 ||
  c.toNat = 11 || c.toNat = 12

/-- Python `\w` (ASCII range): `a`-`z`, `A`-`Z`, `0`-`9`, underscore. -/
def pyWord (c : Char) : Bool :=
  (97 ≤ c.toNat && c.toNat ≤ 122) || (65 ≤ c.toNat && c.toNat ≤ 90) ||
  (48 ≤ c.toNat && c.toNat ≤ 57) || c.toNat = 95

/-- Python `[0-9]`. -/
def pyDigit (c : Char) : Bool := 48 ≤ c.toNat && c.toNat ≤ 57

/-- Python `[1-9]`. -/
def pyDigit19 (c : Char) : Bool := 49 ≤ c.toNat && c.toNat ≤ 57

/-- ASCII `str.lower()` on one character. -/
def pyLower (c : Char) : Char :=
  if 65 ≤ c.toNat && c.toNat ≤ 90 then Char.ofNat (c.toNat + 32) else c

/-- Syntax of the regular expressions the bears build.  `alt` prefers its
left branch, `opt` and `star` are greedy, `nla` is negative lookahead
`(?!...)`, `grp` is the (single) capture group. -/
inductive RE where
  | eps : RE
  | pred : (Char → Bool) → RE
  | str : List Char → RE
  | cat : RE → RE → RE
  | alt : RE → RE → RE
  | opt : RE → RE
  | star : RE → RE
  | nla : RE → RE
  | grp : RE → RE

/-- A capture: the group's span `(start, stop)` when it matched. -/
abbrev Cap := Option (Nat × Nat)

/-- Backtracking matcher in continuation-passing style over the subject `s`,
at position `i`, with current capture `cap`.  The continuation is attempted
for every way the node can match, in the engine's preference order, and the
first overall success wins — exactly CPython's leftmost/greedy backtracking
on these constructs.  `fuel` bounds the depth of the call tree; every use
below passes ample fuel for its subject. -/
def mrun (s : List Char) : Nat → RE → Nat → Cap →
    (Nat → Cap → Option (Nat × Cap)) → Option (Nat × Cap)
  | 0, _, _, _, _ => none
  | fuel+1, r, i, cap, k =>
    match r with
    | .eps => k i cap
    | .pred p =>
      match s.get? i with
      | some c => if p c then k (i+1) cap else none
      | none => none
    | .str l => if l.isPrefixOf (s.drop i) then k (i + l.length) cap else none
    | .cat a b => mrun s fuel a i cap (fun j c => mrun s fuel b j c k)
    | .alt a b =>
      (mrun s fuel a i cap k).orElse (fun _ => mrun s fuel b i cap k)
    | .opt a => (mrun s fuel a i cap k).orElse (fun _ => k i cap)
    | .star a =>
      (mrun s fuel a i cap
        (fun j c => if j = i then none else mrun s fuel (.star a) j c k)).orElse
        (fun _ => k i cap)
    | .nla a =>
      match mrun s fuel a i none (fun j c => some (j, c)) with
      | some _ => none
      | none => k i cap
    | .grp a => mrun s fuel a i cap (fun j _ => k j (some (i, j)))

/-- `re.match` anchored at position `i`: resulting end position and capture. -/
def matchAt (fuel : Nat) (r : RE) (s : List Char) (i : Nat) :
    Option (Nat × Cap) :=
  mrun s fuel r i none (fun j c => some (j, c))

/-- Worker for `firstMatchFrom`, with step bound `n`. -/
def firstMatchFromGo (fuel : Nat) (r : RE) (s : List Char) :
    Nat → Nat → Option (Nat × Nat × Cap)
  | 0, _ => none
  | n+1, i =>
    if i ≤ s.length then
      match matchAt fuel r s i with
      | some (j, c) => some (i, j, c)
      | none => firstMatchFromGo fuel r s n (i+1)
    else none

/-- First match of `r` in `s` at a position `≥ i` (Python search semantics):
`(start, stop, capture)`. -/
def firstMatchFrom (fuel : Nat) (r : RE) (s : List Char) (i : Nat) :
    Option (Nat × Nat × Cap) :=
  firstMatchFromGo fuel r s (s.length + 1) i

/-- The text of a capture span inside `s`. -/
def capText (s : List Char) (c : Cap) : List Char :=
  match c with
  | some (a, b) => (s.drop a).take (b - a)
  | none => []

/-- Worker for `findAllCaps`, with its own step bound `n`. -/
def findAllCapsGo (fuel : Nat) (r : RE) (s : List Char) :
    Nat → Nat → List (List Char)
  | 0, _ => []
  | n+1, i =>
    match firstMatchFrom fuel r s i with
    | none => []
    | some (b, e, c) =>
      capText s c :: findAllCapsGo fuel r s n (if e ≤ b then b + 1 else e)

/-- Python `re.findall` for a pattern with one group: the list of the
group's texts, scanning left to right without overlap. -/
def findAllCaps (fuel : Nat) (r : RE) (s : List Char) : List (List Char) :=
  findAllCapsGo fuel r s (s.length + 1) 0

/-- Worker for `splitRe`, with its own step bound `n`. -/
def splitReGo (fuel : Nat) (sep : RE) (s : List Char) :
    Nat → Nat → List (List Char)
  | 0, i => [s.drop i]
  | n+1, i =>
    match firstMatchFrom fuel sep s i with
    | none => [s.drop i]
    | some (b, e, _) =>
      if e ≤ i then [s.drop i]
      else (s.drop i).take (b - i) :: splitReGo fuel sep s n e

/-- Python `re.split`: the pieces of `s` between successive matches of
`sep`. -/
def splitRe (fuel : Nat) (sep : RE) (s : List Char) : List (List Char) :=
  splitReGo fuel sep s (s.length + 1) 0

/-- Character class as a regex atom. -/
def reCls (l : List Char) : RE := .pred (fun c => l.contains c)

/-- Single literal character as a regex atom. -/
def reChar (c : Char) : RE := .pred (fun d => d = c)

/-- Literal string as a regex atom. -/
def reLit (t : String) : RE := .str t.data

/-- `\s` as a regex atom. -/
def reSpace : RE := .pred pySpace

/-- `\S` as a regex atom. -/
def reNonSpace : RE := .pred (fun c => !(pySpace c))

/-- Greedy `+`. -/
def rePlus (r : RE) : RE := .cat r (.star r)

/-- `GitCommitBear.SUPPORTED_HOST_KEYWORD_REGEX['github']`:
`[Cc]lose[sd]?|[Rr]esolve[sd]?|[Ff]ix(?:e[sd])?`. -/
def kwGithub : RE :=
  .alt (.cat (reCls ['C', 'c']) (.cat (reLit "lose") (.opt (reCls ['s', 'd']))))
    (.alt
      (.cat (reCls ['R', 'r']) (.cat (reLit "esolve") (.opt (reCls ['s', 'd']))))
      (.cat (reCls ['F', 'f'])
        (.cat (reLit "ix") (.opt (.cat (reChar 'e') (reCls ['s', 'd']))))))

/-- `GitCommitBear.SUPPORTED_HOST_KEYWORD_REGEX['gitlab']`:
`[Cc]los(?:e[sd]?|ing)|[Rr]esolv(?:e[sd]?|ing)|[Ff]ix(?:e[sd]|ing)?`. -/
def kwGitlab : RE :=
  .alt
    (.cat (reCls ['C', 'c'])
      (.cat (reLit "los")
        (.alt (.cat (reChar 'e') (.opt (reCls ['s', 'd']))) (reLit "ing"))))
    (.alt
      (.cat (reCls ['R', 'r'])
        (.cat (reLit "esolv")
          (.alt (.cat (reChar 'e') (.opt (reCls ['s', 'd']))) (reLit "ing"))))
      (.cat (reCls ['F', 'f'])
        (.cat (reLit "ix")
          (.opt (.alt (.cat (reChar 'e') (reCls ['s', 'd'])) (reLit "ing"))))))

/-- `HgCommitBear.SUPPORTED_HOST_KEYWORD_REGEX['bitbucket']`:
`[Cc]los(?:e[sd]?|ing)|[Rr]esolv(?:e[sd]?|ing)|[Ff]ix(?:e[sd]|ing)?`. -/
def kwBitbucket : RE :=
  .alt
    (.cat (reCls ['C', 'c'])
      (.cat (reLit "los")
        (.alt (.cat (reChar 'e') (.opt (reCls ['s', 'd']))) (reLit "ing"))))
    (.alt
      (.cat (reCls ['R', 'r'])
        (.cat (reLit "esolv")
          (.alt (.cat (reChar 'e') (.opt (reCls ['s', 'd']))) (reLit "ing"))))
      (.cat (reCls ['F', 'f'])
        (.cat (reLit "ix")
          (.opt (.alt (.cat (reChar 'e') (reCls ['s', 'd'])) (reLit "ing"))))))

/-- `'|'.join(CONCATENATION_KEYWORDS)` with
`CONCATENATION_KEYWORDS = [',', '\sand\s']`, i.e. `,|\sand\s`. -/
def ccRE : RE :=
  .alt (reChar ',') (.cat reSpace (.cat (reLit "and") reSpace))

/-- `compiled_concat_regex`: `\s*(?:,|\sand\s)\s*`. -/
def ccSplitRE : RE := .cat (.star reSpace) (.cat ccRE (.star reSpace))

/-- One link/tag chunk of the joint regex: `(?:\S(?!{cc}))*\S`. -/
def chunkRE (cc : RE) : RE :=
  .cat (.star (.cat reNonSpace (.nla cc))) reNonSpace

/-- `compiled_joint_regex` of `check_issue_reference`, for keyword pattern
`kw` and conjunction pattern `cc`:
`(?:{kw})\s+((?:\S(?!{cc}))*\S(?:\s*(?:{cc})\s*(?!{kw})(?:\S(?!{cc}))*\S)*)`. -/
def jointRE (kw cc : RE) : RE :=
  .cat kw (.cat (rePlus reSpace)
    (.grp (.cat (chunkRE cc)
      (.star (.cat (.star reSpace)
        (.cat cc (.cat (.star reSpace) (.cat (.nla kw) (chunkRE cc)))))))))

/-- Fuel that is ample for every subject in this development (the matcher's
call-tree depth is linear in the subject length with a small constant). -/
def FUEL : Nat := 10000

/-- `findall` of the joint regex over a commit body, as strings. -/
def extractPhrases (kw : RE) (body : String) : List String :=
  (findAllCaps FUEL (jointRE kw ccRE) body.data).map String.mk

/-- `re.split(compiled_concat_regex, match)`, as strings. -/
def splitPhrase (phrase : String) : List String :=
  (splitRe FUEL ccSplitRE phrase.data).map String.mk

/-- All characters non-whitespace (the `\S+` body condition). -/
def allNonSpace (l : List Char) : Bool := l.all (fun c => !(pySpace c))

/-- Fullmatch of `#(\S+)` against `l`: the capture is everything after the
leading `#`, provided it is nonempty and whitespace-free (the greedy `\S+`
reaches the end of the subject). -/
def hashSuffixCapture (l : List Char) : Option (List Char) :=
  match l with
  | '#' :: rest => if !rest.isEmpty && allNonSpace rest then some rest else none
  | _ => none

/-- `re.fullmatch(r'(?:\w+/\w+)?#(\S+)', token)` (the git short-reference
shape): group 1 on success.  The optional greedy group is attempted first;
because `\w` matches neither `/` nor `#`, its two word runs are the maximal
ones, so the prefix branch is deterministic, and on its failure the engine
retries with the group skipped. -/
def shortRefCaptureGit (l : List Char) : Option (List Char) :=
  (let a := l.takeWhile pyWord
   if a.isEmpty then none
   else
     match l.drop a.length with
     | '/' :: r1 =>
       let b := r1.takeWhile pyWord
       if b.isEmpty then none else hashSuffixCapture (r1.drop b.length)
     | _ => none).orElse
    (fun _ => hashSuffixCapture l)

/-- `re.fullmatch(r'(?:\w+/\w+)?#(\S+)/?', token)` (the mercurial
short-reference shape): the greedy `\S+` always reaches the end of the
subject first and the trailing `/?` then matches the empty string, so match
success and group 1 coincide with the git shape. -/
def shortRefCaptureHg (l : List Char) : Option (List Char) :=
  shortRefCaptureGit l

/-- `https?://` — the greedy `s?` branch is deterministic because `s ≠ :`. -/
def stripScheme (l : List Char) : Option (List Char) :=
  match l with
  | 'h' :: 't' :: 't' :: 'p' :: 's' :: ':' :: '/' :: '/' :: rest => some rest
  | 'h' :: 't' :: 't' :: 'p' :: ':' :: '/' :: '/' :: rest => some rest
  | _ => none

/-- Start indices of every occurrence of `pat` in `l`. -/
def occurrencesOf (pat l : List Char) : List Nat :=
  (List.range (l.length + 1)).filter (fun i => pat.isPrefixOf (l.drop i))

/-- `re.fullmatch(r'https?://{host}\S+/issues/(\S+)', token)` (the git
full-URL shape, `host` already literal after `re.escape`): after the scheme
and the host literal, the rest must be whitespace-free and decompose as
`\S+ ++ "/issues/" ++ group1` with both runs nonempty; the greedy first
`\S+` places `/issues/` at the last occurrence that leaves a nonempty
group. -/
def fullUrlCaptureGit (host : String) (l : List Char) : Option (List Char) :=
  match stripScheme l with
  | none => none
  | some r0 =>
    if host.data.isPrefixOf r0 && allNonSpace (r0.drop host.length) then
      let rest := r0.drop host.length
      ((occurrencesOf "/issues/".data rest).filter
          (fun k => 1 ≤ k && k + 8 < rest.length)).max?.map
        (fun k => rest.drop (k + 8))
    else none

/-- Fullmatch of `(\S+)/\S+` against a whitespace-free `r2`: the greedy
group backtracks to the last `/` that leaves both sides nonempty. -/
def lastSlashSplit (r2 : List Char) : Option (List Char) :=
  ((occurrencesOf ['/'] r2).filter (fun m => 1 ≤ m && m + 1 < r2.length)).max?.map
    (fun m => r2.take m)

/-- `re.fullmatch(r'https?://{host}\S+/issues/(\S+)/\S+', token)` (the
mercurial full-URL shape): like the git shape but the group must be
followed by `/` and one more nonempty `\S+` run; backtracking tries the
`/issues/` occurrences from the last one down. -/
def fullUrlCaptureHg (host : String) (l : List Char) : Option (List Char) :=
  match stripScheme l with
  | none => none
  | some r0 =>
    if host.data.isPrefixOf r0 && allNonSpace (r0.drop host.length) then
      let rest := r0.drop host.length
      (((occurrencesOf "/issues/".data rest).filter (fun k => 1 ≤ k)).reverse).findSome?
        (fun k => lastSlashSplit (rest.drop (k + 8)))
    else none

/-- `re.fullmatch(r'[1-9][0-9]*', s)` as a Boolean (`compiled_issue_no_regex`). -/
def isIssueNumber (l : List Char) : Bool :=
  match l with
  | [] => false
  | c :: cs => pyDigit19 c && cs.all pyDigit

/-- The findings the loop body of `check_issue_reference` yields for one
split-off token `issue` in the git bear: `Invalid {result_info} reference`
when the shape pattern does not fullmatch, else `Invalid issue number` when
group 1 does not fullmatch `[1-9][0-9]*`, else nothing. -/
def tokenFindingsGit (fullUrl : Bool) (host : String) (issue : List Char) :
    List String :=
  let resultInfo := if fullUrl then "full issue" else "issue"
  match (if fullUrl then fullUrlCaptureGit host issue
         else shortRefCaptureGit issue) with
  | none => ["Invalid " ++ resultInfo ++ " reference: " ++ String.mk issue]
  | some g =>
    if isIssueNumber g then []
    else ["Invalid issue number: " ++ String.mk issue]

/-- The findings the loop body of `check_issue_reference` yields for one
split-off token `issue` in the mercurial bear. -/
def tokenFindingsHg (fullUrl : Bool) (host : String) (issue : List Char) :
    List String :=
  let resultInfo := if fullUrl then "full issue" else "issue"
  match (if fullUrl then fullUrlCaptureHg host issue
         else shortRefCaptureHg issue) with
  | none => ["Invalid " ++ resultInfo ++ " reference: " ++ String.mk issue]
  | some g =>
    if isIssueNumber g then []
    else ["Invalid issue number: " ++ String.mk issue]

/-- `GitCommitBear.SUPPORTED_HOST_KEYWORD_REGEX` as a lookup. -/
def SUPPORTED_HOST_KEYWORD_REGEX_git (h : String) : Option RE :=
  if h = "github" then some kwGithub
  else if h = "gitlab" then some kwGitlab
  else none

/-- `HgCommitBear.SUPPORTED_HOST_KEYWORD_REGEX` as a lookup. -/
def SUPPORTED_HOST_KEYWORD_REGEX_hg (h : String) : Option RE :=
  if h = "bitbucket" then some kwBitbucket else none

/-- Python `str.split(sep)` for a one-character separator: the pieces
between occurrences of `sep`, keeping empty pieces. -/
def splitOnChar (sep : Char) : List Char → List (List Char)
  | [] => [[]]
  | c :: rest =>
    if c = sep then [] :: splitOnChar sep rest
    else
      match splitOnChar sep rest with
      | h :: t => (c :: h) :: t
      | [] => [[c]]

/-- Python `str.split(sep)` for a one-character separator, on `String`s. -/
def pySplitChar (sep : Char) (s : String) : List String :=
  (splitOnChar sep s.data).map String.mk

/-- Python `str.splitlines()` for `\n`-separated text (the subjects here use
only `\n`): like splitting on newlines but without a trailing empty piece
(and `[]` on the empty string). -/
def pySplitlines (s : String) : List String :=
  let l := pySplitChar '\n' s
  if l.getLast? = some "" then l.dropLast else l

/-- `body.splitlines()[-1]`. -/
def pyLastLine (s : String) : String := (pySplitlines s).getLast?.getD ""

/-- The `result_message.format(result_info)` strings of
`check_issue_reference`. -/
def noReferenceMessage (onLastLine : Bool) (resultInfo : String) : String :=
  if onLastLine then
    "Body of HEAD commit does not contain any " ++ resultInfo ++
      " reference in the last line."
  else
    "Body of HEAD commit does not contain any " ++ resultInfo ++ " reference."

/-- `GitCommitBear.check_issue_reference`, with the host that
`get_host_from_remotes()` returned passed in as `host`.  Findings are the
result messages in yield order. -/
def check_issue_reference_git (host : Option String) (body : String)
    (body_close_issue body_close_issue_full_url body_close_issue_on_last_line
      body_enforce_issue_reference : Bool) : List String :=
  if !body_close_issue then []
  else
    match host.bind SUPPORTED_HOST_KEYWORD_REGEX_git, host with
    | none, _ => []
    | _, none => []
    | some kw, some h =>
      let body1 :=
        if body_close_issue_on_last_line && body ≠ "" then pyLastLine body
        else body
      let resultInfo := if body_close_issue_full_url then "full issue" else "issue"
      let phraseList := extractPhrases kw body1
      if body_enforce_issue_reference && phraseList.isEmpty then
        [noReferenceMessage body_close_issue_on_last_line resultInfo]
      else
        phraseList.flatMap (fun m =>
          (splitPhrase m).flatMap (fun issue =>
            tokenFindingsGit body_close_issue_full_url h issue.data))

/-- `HgCommitBear.check_issue_reference`, with the host that
`get_host_from_remotes()` returned passed in as `host`.  Unlike the git
bear it reports a missing or unsupported host explicitly. -/
def check_issue_reference_hg (host : Option String) (body : String)
    (body_close_issue body_close_issue_full_url body_close_issue_on_last_line
      body_enforce_issue_reference : Bool) : List String :=
  if !body_close_issue then []
  else
    match host with
    | none => ["No host configured in path."]
    | some h =>
      match SUPPORTED_HOST_KEYWORD_REGEX_hg h with
      | none => ["Un-supported host in path."]
      | some kw =>
        let body1 :=
          if body_close_issue_on_last_line && body ≠ "" then pyLastLine body
          else body
        let resultInfo := if body_close_issue_full_url then "full issue" else "issue"
        let phraseList := extractPhrases kw body1
        if body_enforce_issue_reference && phraseList.isEmpty then
          [noReferenceMessage body_close_issue_on_last_line resultInfo]
        else
          phraseList.flatMap (fun m =>
            (splitPhrase m).flatMap (fun issue =>
              tokenFindingsHg body_close_issue_full_url h issue.data))

/-- Python `sub in s` (substring containment). -/
def pyInStr (sub l : List Char) : Bool := !(occurrencesOf sub l).isEmpty

/-- `re.findall(r'@(\S+)' + stop, url)[0]` for a single literal character
`stop` (`:` in the git bear, `\.` in the mercurial bear): the first `@`
whose following maximal whitespace-free run contains `stop` after at least
one character yields the run up to the last such `stop`; `none` models the
`IndexError` when no match exists. -/
def sshHostCapture (stop : Char) : List Char → Option (List Char)
  | [] => none
  | c :: rest =>
    if c = '@' then
      let r := rest.takeWhile (fun d => !(pySpace d))
      match ((occurrencesOf [stop] r).filter (fun k => 1 ≤ k)).max? with
      | some k => some (r.take k)
      | none => sshHostCapture stop rest
    else sshHostCapture stop rest

/-- Python URL-scheme characters (letters, digits, `+`, `-`, `.`). -/
def schemeChar (c : Char) : Bool :=
  (97 ≤ c.toNat && c.toNat ≤ 122) || (65 ≤ c.toNat && c.toNat ≤ 90) ||
  (48 ≤ c.toNat && c.toNat ≤ 57) || c = '+' || c = '-' || c = '.'

/-- ASCII letter. -/
def asciiAlpha (c : Char) : Bool :=
  (97 ≤ c.toNat && c.toNat ≤ 122) || (65 ≤ c.toNat && c.toNat ≤ 90)

/-- `urllib.parse.urlparse(url)[1]` (the network location): strip a valid
`scheme:` prefix if present; the netloc is then the text after a leading
`//`, up to the next `/`, `?` or `#`, and empty when the remainder does not
start with `//`. -/
def urlparseNetloc (url : String) : String :=
  let l := url.data
  let l1 :=
    match l.findIdx? (fun c => c = ':') with
    | some i =>
      let sch := l.take i
      if (match sch with
          | c :: _ => asciiAlpha c && sch.all schemeChar
          | [] => false) then
        l.drop (i + 1)
      else l
    | none => l
  match l1 with
  | '/' :: '/' :: rest =>
    String.mk (rest.takeWhile (fun c => c ≠ '/' && c ≠ '?' && c ≠ '#'))
  | _ => ""

/-- `GitCommitBear.get_host_from_remotes`, applied to the already-split
list of configured remote URLs (the output of the external
`git config --get-regex` call after the line/field splitting).  `none`
models both the empty remote list and the `IndexError` of `findall(...)[0]`
finding no match. -/
def get_host_from_remotes_git (remotes : List String) : Option String :=
  match remotes with
  | [] => none
  | url :: _ =>
    let netloc :=
      if pyInStr "git@".data url.data then
        (sshHostCapture ':' url.data).map String.mk
      else some (urlparseNetloc url)
    netloc.map (fun n => (pySplitChar '.' n).headD "")

/-- `HgCommitBear.get_host_from_remotes`, applied to the already-split list
of configured remote URLs (the output of the external `hg paths` call after
the line/field splitting).  The SSH branch matches `@(\S+)\.` — up to the
last dot — and the result additionally drops everything up to the last `@`
of the first dot-separated label. -/
def get_host_from_remotes_hg (remotes : List String) : Option String :=
  match remotes with
  | [] => none
  | url :: _ =>
    let netloc :=
      if pyInStr "hg@".data url.data then
        (sshHostCapture '.' url.data).map String.mk
      else some (urlparseNetloc url)
    netloc.map (fun n =>
      (pySplitChar '@' ((pySplitChar '.' n).headD "")).getLast?.getD "")

/-- Modelled from the claim under test (C8), not from the source: the
mercurial-backend host rule as the claim words it, with the SSH-style host
taken as the segment between `@` and `:` (the source instead matches
`@(\S+)\.`, i.e. up to a dot). -/
def resolveHostClaimRule_hg (remotes : List String) : Option String :=
  match remotes with
  | [] => none
  | url :: _ =>
    let netloc :=
      if pyInStr "hg@".data url.data then
        (sshHostCapture ':' url.data).map String.mk
      else some (urlparseNetloc url)
    netloc.map (fun n =>
      (pySplitChar '@' ((pySplitChar '.' n).headD "")).getLast?.getD "")

/-- The fixed WIP finding of `check_shortlog`. -/
def wipMessage : String :=
  "This commit seems to be marked as work in progress and should not be " ++
  "used in production. Treat carefully."

/-- The shortlog-length finding, for shortlog length `n` over limit `limit`. -/
def lengthMessage (n limit : Nat) : String :=
  "Shortlog of the HEAD commit contains " ++ toString n ++
  " character(s). This is " ++ toString (n - limit) ++
  " character(s) longer than the limit (" ++ toString n ++ " > " ++
  toString limit ++ ")."

/-- The imperative-mood finding for bad word `w`. -/
def imperativeMessage (w : String) : String :=
  "Shortlog of HEAD commit isn't in imperative mood! Bad words are '" ++
  w ++ "'"

/-- `shortlog[colon_pos + 1:] if colon_pos != -1 else shortlog` — the
rebinding of `shortlog` inside the imperative-check block, which the later
WIP check also reads. -/
def colonTail (s : String) : String :=
  match s.data.findIdx? (fun c => c = ':') with
  | some i => String.mk (s.data.drop (i + 1))
  | none => s

/-- `'wip' in text.lower()[:4]`. -/
def wipInFirstFour (text : String) : Bool :=
  pyInStr ['w', 'i', 'p'] ((text.data.map pyLower).take 4)

/-- `_CommitBear.check_shortlog`.  The imperative-mood tagger is an outside
collaborator (nltk), passed in as `imper`: the bad word it reports for the
scanned text, if any.  The regex parameter is likewise passed as its source
text together with its compiled fullmatch test.  The result is `none` when
the Python code raises `IndexError` — `shortlog[-1]` on an empty shortlog,
evaluated unconditionally by the trailing-period test — and otherwise the
findings in yield order. -/
def check_shortlog (imper : String → Option String) (shortlog : String)
    (shortlog_length : Nat) (shortlog_regex : Option (String × (String → Bool)))
    (shortlog_trailing_period : Option Bool)
    (shortlog_imperative_check shortlog_wip_check : Bool) :
    Option (List String) :=
  let lengthF :=
    if shortlog_length < shortlog.length then
      [lengthMessage shortlog.length shortlog_length]
    else []
  match shortlog.data.getLast? with
  | none => none
  | some lastC =>
    let periodF :=
      match shortlog_trailing_period with
      | none => []
      | some b =>
        if (decide (lastC ≠ '.')) = b then
          [if b then "Shortlog of HEAD commit contains no period at end."
           else "Shortlog of HEAD commit contains a period at end."]
        else []
    let regexF :=
      match shortlog_regex with
      | none => []
      | some (pat, fullmatch) =>
        if fullmatch shortlog then []
        else ["Shortlog of HEAD commit does not match given regex: " ++ pat]
    let scanned :=
      if shortlog_imperative_check then colonTail shortlog else shortlog
    let imperF :=
      if shortlog_imperative_check then
        match imper scanned with
        | some w => [imperativeMessage w]
        | none => []
      else []
    let wipF :=
      if shortlog_wip_check then
        if wipInFirstFour scanned then [wipMessage] else []
      else []
    some (lengthF ++ periodF ++ regexF ++ imperF ++ wipF)

/-- `stdout.rstrip('\n')` in `run`. -/
def pyRstripNewlines (s : String) : String :=
  String.mk (s.data.reverse.dropWhile (fun c => c = '\n')).reverse

/-- The shortlog `run` computes from the raw `git log` / `hg log` output:
after stripping trailing newlines, everything before the first newline (the
whole text when there is none). -/
def runShortlog (stdoutRaw : String) : String :=
  let st := pyRstripNewlines stdoutRaw
  match st.data.findIdx? (fun c => c = '\n') with
  | some pos => String.mk (st.data.take pos)
  | none => st

/-- When this holds, `run` reaches the `check_shortlog` call (the stripped
output is nonempty, so the empty-message early return is not taken). -/
def runInvokesChecks (stdoutRaw : String) : Bool :=
  pyRstripNewlines stdoutRaw ≠ ""

/-- Unfolding `String.append` to list append. -/
lemma data_of_append (s t : String) : (s ++ t).data = s.data ++ t.data := by
  cases s; cases t; rfl

/-- Two strings with different first characters differ. -/
lemma ne_of_head (a b : String) (ca cb : Char) (ha : a.data.head? = some ca)
    (hb : b.data.head? = some cb) (hne : ca ≠ cb) : a ≠ b := by
  intro h
  subst h
  rw [ha] at hb
  exact hne (Option.some.inj hb)

/-- Digits are not whitespace. -/
lemma digit_not_space (d : Char) (h : pyDigit d = true) : pySpace d = false := by
  simp only [pyDigit, Bool.and_eq_true, decide_eq_true_eq] at h
  simp only [pySpace, Bool.or_eq_false_iff, decide_eq_false_iff_not]
  omega

/-- `[1-9]` is contained in `[0-9]`. -/
lemma digit19_digit (d : Char) (h : pyDigit19 d = true) : pyDigit d = true := by
  simp only [pyDigit19, Bool.and_eq_true, decide_eq_true_eq] at h
  simp only [pyDigit, Bool.and_eq_true, decide_eq_true_eq]
  omega

/-- C3: for the body of the spec's end-to-end example with close-issue
checking on and full-url off, the joint regex extracts exactly one keyword
phrase, the conjunction split yields exactly the three tokens `#1112`,
`#1115`, `#123`, and the whole check (git bear with a supported host, and
likewise the mercurial bear) emits zero findings. -/
theorem C3_conjunction_splits_three_tokens :
    extractPhrases kwGithub "First line.\nAnother line.\nFix #1112, #1115 and #123" =
      ["#1112, #1115 and #123"] ∧
    splitPhrase "#1112, #1115 and #123" = ["#1112", "#1115", "#123"] ∧
    check_issue_reference_git (some "github")
      "First line.\nAnother line.\nFix #1112, #1115 and #123"
      true false false false = [] ∧
    check_issue_reference_hg (some "bitbucket")
      "First line.\nAnother line.\nFix #1112, #1115 and #123"
      true false false false = [] := by
  refine ⟨by decide, by decide, by decide, by decide⟩

/-- C4: in `Fix #1 and Resolve #2` the second keyword sits right after a
conjunction boundary, and the `(?!keyword)` guard of the joint regex makes
extraction close the first phrase before it: two separate phrases result,
capturing `#1` and `#2`, for the git bear's github dialect and the
mercurial bear's bitbucket dialect alike. -/
theorem C4_new_keyword_terminates_phrase :
    extractPhrases kwGithub "Fix #1 and Resolve #2" = ["#1", "#2"] ∧
    extractPhrases kwBitbucket "Fix #1 and Resolve #2" = ["#1", "#2"] ∧
    splitPhrase "#1" = ["#1"] ∧ splitPhrase "#2" = ["#2"] := by
  refine ⟨by decide, by decide, by decide, by decide⟩

/-- C5: with full-url checking on and the supported host `bitbucket`, a
keyword clause joining the URL with number `1232` and the URL with number
`not_num` by a conjunction is extracted as one phrase, split into the two
URLs, and the whole check emits exactly one finding — `Invalid issue
number` for the second URL — while the first URL (captured group `1232`)
contributes none. -/
theorem C5_full_url_invalid_number_single_finding :
    extractPhrases kwBitbucket
      "Update deps.\nClosing https://bitbucket/o/r/issues/1232/x\nand https://bitbucket/o/r/issues/not_num/x" =
      ["https://bitbucket/o/r/issues/1232/x\nand https://bitbucket/o/r/issues/not_num/x"] ∧
    splitPhrase "https://bitbucket/o/r/issues/1232/x\nand https://bitbucket/o/r/issues/not_num/x" =
      ["https://bitbucket/o/r/issues/1232/x", "https://bitbucket/o/r/issues/not_num/x"] ∧
    fullUrlCaptureHg "bitbucket" "https://bitbucket/o/r/issues/1232/x".data =
      some "1232".data ∧
    fullUrlCaptureHg "bitbucket" "https://bitbucket/o/r/issues/not_num/x".data =
      some "not_num".data ∧
    check_issue_reference_hg (some "bitbucket")
      "Update deps.\nClosing https://bitbucket/o/r/issues/1232/x\nand https://bitbucket/o/r/issues/not_num/x"
      true true false false =
      ["Invalid issue number: https://bitbucket/o/r/issues/not_num/x"] := by
  refine ⟨by decide, by decide, by decide, by decide, by decide⟩

/-- C10 counterexample: with the default configuration (imperative check
on), the shortlog `fix: wip` has no `wip` within its own first four
characters (`fix:`), yet `check_shortlog` emits the work-in-progress
finding, because the imperative-check block rebinds `shortlog` to the text
after the colon and the WIP test reads that rebound variable. -/
theorem C10_counterexample_wip_after_colon :
    check_shortlog (fun _ => none) "fix: wip" 50 none none true true =
      some [wipMessage] ∧
    wipInFirstFour "fix: wip" = false := by
  refine ⟨by decide, by decide⟩

/-- C8 counterexample: for the first configured mercurial remote
`ssh://hg@bitbucket.org/virresh/mercurialtest` the source extracts the
SSH-style host with `@(\S+)\.` — the segment between `@` and a dot — and
resolves `bitbucket`, while the claim's rule (segment between `@` and `:`)
finds no match on this URL. -/
theorem C8_counterexample_hg_ssh_dot :
    get_host_from_remotes_hg ["ssh://hg@bitbucket.org/virresh/mercurialtest"] =
      some "bitbucket" ∧
    resolveHostClaimRule_hg ["ssh://hg@bitbucket.org/virresh/mercurialtest"] =
      none := by
  refine ⟨by decide, by decide⟩

/-- C7 counterexample: with close-issue checking and full-url checking both
requested and the resolved host `example` absent from the git bear's
registry, the git bear emits zero findings (it returns silently), not the
single unsupported-host finding the claim asserts. -/
theorem C7_counterexample_git_unsupported_silent :
    check_issue_reference_git (some "example")
      "Closes https://example/x/issues/5" true true false false = [] := by
  decide

/-- Suffix of the reverse-dropWhile in `rstrip` read back as a prefix. -/
lemma rstrip_isPrefix (s : String) : (pyRstripNewlines s).data <+: s.data := by
  have h1 : s.data.reverse.dropWhile (fun c => c = '\n') <:+ s.data.reverse :=
    List.dropWhile_suffix _
  have h2 := List.reverse_prefix.mpr h1
  simpa [pyRstripNewlines] using h2

/-- First character of the WIP finding. -/
lemma wip_head : wipMessage.data.head? = some 'T' := rfl

/-- The length finding never coincides with the WIP finding. -/
lemma lengthMessage_ne_wip (n limit : Nat) : lengthMessage n limit ≠ wipMessage := by
  refine ne_of_head _ _ 'S' 'T' ?_ wip_head (by decide)
  simp only [lengthMessage, data_of_append]
  rfl

/-- The imperative-mood finding never coincides with the WIP finding. -/
lemma imperativeMessage_ne_wip (w : String) : imperativeMessage w ≠ wipMessage := by
  refine ne_of_head _ _ 'S' 'T' ?_ wip_head (by decide)
  simp only [imperativeMessage, data_of_append]
  rfl

/-- C1: for every token that fully matches the short-reference shape
`(?:\w+/\w+)?#(\S+)`, the validator yields a finding — the single
`Invalid issue number` finding carrying the token verbatim — if and only if
the captured group does not fully match `[1-9][0-9]*`; in particular every
token `#N` whose digits start with a nonzero digit (an integer N ≥ 1
written without a leading zero) yields no finding, while `#0` and `#0123`
each yield exactly one `Invalid issue number` finding, in the git and
mercurial bears alike. -/
theorem C1_issue_number_validation :
    (∀ (t g : List Char), shortRefCaptureGit t = some g →
      tokenFindingsGit false "github" t =
        (if isIssueNumber g then []
         else ["Invalid issue number: " ++ String.mk t])) ∧
    (∀ (c : Char) (cs : List Char), pyDigit19 c = true → cs.all pyDigit = true →
      tokenFindingsGit false "github" ('#' :: c :: cs) = [] ∧
      tokenFindingsHg false "bitbucket" ('#' :: c :: cs) = []) ∧
    tokenFindingsGit false "github" "#0".data = ["Invalid issue number: #0"] ∧
    tokenFindingsGit false "github" "#0123".data =
      ["Invalid issue number: #0123"] ∧
    tokenFindingsHg false "bitbucket" "#0".data = ["Invalid issue number: #0"] ∧
    tokenFindingsHg false "bitbucket" "#0123".data =
      ["Invalid issue number: #0123"] := by
  refine ⟨?_, ?_, by decide, by decide, by decide, by decide⟩
  · intro t g h
    simp [tokenFindingsGit, h]
  · intro c cs h1 h2
    have hall : allNonSpace (c :: cs) = true := by
      simp only [allNonSpace, List.all_cons, Bool.and_eq_true, List.all_eq_true]
      refine ⟨by simp [digit_not_space c (digit19_digit c h1)], fun d hd => by
        simp [digit_not_space d (List.all_eq_true.mp h2 d hd)]⟩
    have hw : pyWord '#' = false := by decide
    have hcap : shortRefCaptureGit ('#' :: c :: cs) = some (c :: cs) := by
      simp [shortRefCaptureGit, hashSuffixCapture, hw, hall, Option.orElse]
    have hnum : isIssueNumber (c :: cs) = true := by
      simp [isIssueNumber, h1, h2]
    constructor
    · simp [tokenFindingsGit, hcap, hnum]
    · simp [tokenFindingsHg, shortRefCaptureHg, hcap, hnum]

/-- Witness for C1: the theorem applied at the concrete tokens `#7` and
`#12`, with their shape captures discharged by evaluation. -/
theorem C1_issue_number_validation_witness :
    tokenFindingsGit false "github" ('#' :: '7' :: []) = [] ∧
    tokenFindingsGit false "github" "#12".data =
      (if isIssueNumber "12".data then []
       else ["Invalid issue number: " ++ String.mk "#12".data]) :=
  ⟨(C1_issue_number_validation.2.1 '7' [] (by decide) (by decide)).1,
   C1_issue_number_validation.1 "#12".data "12".data (by decide)⟩

/-- C2: every token whose text does not fully match the shape pattern
yields exactly one `Invalid ... reference` finding carrying the raw token
text verbatim, with no issue-number validation reached (short shape of the
git bear, full-URL shape of the mercurial bear); and matching is full,
not partial: `abc#1` is rejected although its substring `#1` fully matches
the shape. -/
theorem C2_full_match_required :
    (∀ t : List Char, shortRefCaptureGit t = none →
      tokenFindingsGit false "github" t =
        ["Invalid issue reference: " ++ String.mk t]) ∧
    (∀ t : List Char, fullUrlCaptureHg "bitbucket" t = none →
      tokenFindingsHg true "bitbucket" t =
        ["Invalid full issue reference: " ++ String.mk t]) ∧
    shortRefCaptureGit "abc#1".data = none ∧
    shortRefCaptureGit "#1".data = some "1".data := by
  refine ⟨?_, ?_, by decide, by decide⟩
  · intro t h
    simp [tokenFindingsGit, h]
  · intro t h
    simp [tokenFindingsHg, h]

/-- Witness for C2: the theorem applied at the concrete token `abc#1`,
whose failure to fully match is discharged by evaluation. -/
theorem C2_full_match_required_witness :
    tokenFindingsGit false "github" "abc#1".data =
      ["Invalid issue reference: " ++ String.mk "abc#1".data] :=
  C2_full_match_required.1 "abc#1".data (by decide)

/-- C6: whenever phrase extraction over the scanned body finds zero keyword
phrases (close-issue checking on, supported host, full-url and
last-line-only off), the check emits exactly the one `does not contain any
issue reference` finding when enforcement is set and zero findings when it
is not — for the git bear on github and the mercurial bear on bitbucket. -/
theorem C6_enforce_reference_presence :
    (∀ body : String, extractPhrases kwGithub body = [] →
      check_issue_reference_git (some "github") body true false false true =
        ["Body of HEAD commit does not contain any issue reference."] ∧
      check_issue_reference_git (some "github") body true false false false =
        []) ∧
    (∀ body : String, extractPhrases kwBitbucket body = [] →
      check_issue_reference_hg (some "bitbucket") body true false false true =
        ["Body of HEAD commit does not contain any issue reference."] ∧
      check_issue_reference_hg (some "bitbucket") body true false false false =
        []) := by
  constructor
  · intro body h
    constructor <;>
      simp [check_issue_reference_git, SUPPORTED_HOST_KEYWORD_REGEX_git, h,
        noReferenceMessage]
  · intro body h
    constructor <;>
      simp [check_issue_reference_hg, SUPPORTED_HOST_KEYWORD_REGEX_hg, h,
        noReferenceMessage]

/-- Witness for C6: the theorem applied to a concrete keyword-free body,
with the zero-phrases hypothesis discharged by evaluation. -/
theorem C6_enforce_reference_presence_witness :
    check_issue_reference_git (some "github") "Nothing to see here."
      true false false true =
      ["Body of HEAD commit does not contain any issue reference."] ∧
    check_issue_reference_hg (some "bitbucket") "Nothing to see here."
      true false false false = [] :=
  ⟨(C6_enforce_reference_presence.1 "Nothing to see here." (by decide)).1,
   (C6_enforce_reference_presence.2 "Nothing to see here." (by decide)).2⟩

/-- C7 (amended): for every body and flag setting, a resolved host outside
the registry short-circuits reference checking before any extraction; the
mercurial bear emits exactly one `Un-supported host in path.` finding,
while the git bear emits no finding at all. -/
theorem C7_unsupported_host_behaviour :
    ∀ (body : String) (h : String) (fullUrl lastLine enforce : Bool),
      SUPPORTED_HOST_KEYWORD_REGEX_hg h = none →
      SUPPORTED_HOST_KEYWORD_REGEX_git h = none →
      check_issue_reference_hg (some h) body true fullUrl lastLine enforce =
        ["Un-supported host in path."] ∧
      check_issue_reference_git (some h) body true fullUrl lastLine enforce =
        [] := by
  intro body h fullUrl lastLine enforce h1 h2
  constructor
  · simp [check_issue_reference_hg, h1]
  · simp [check_issue_reference_git, h2]

/-- Witness for C7 at the concrete host `example` with full-url checking
requested, both registry misses discharged by evaluation. -/
theorem C7_unsupported_host_behaviour_witness :
    check_issue_reference_hg (some "example") "Closes #1" true true false
      false = ["Un-supported host in path."] ∧
    check_issue_reference_git (some "example") "Closes #1" true true false
      false = [] :=
  C7_unsupported_host_behaviour "Closes #1" "example" true false false
    rfl rfl

/-- C8 (amended): host resolution returns `none` on an empty remote list
and otherwise depends only on the first URL; when the URL contains the
backend's SSH marker (`git@` / `hg@`), the host comes from the pattern
match `@(\S+):` — between `@` and a colon — for the git backend but
`@(\S+)\.` — between `@` and a dot — for the mercurial backend; otherwise
from the parsed network location; the result is the first dot-separated
label, from which the mercurial backend additionally keeps only the part
after the last `@`. -/
theorem C8_host_resolution :
    (get_host_from_remotes_git [] = none ∧ get_host_from_remotes_hg [] = none) ∧
    (∀ (url : String) (rest : List String),
      get_host_from_remotes_git (url :: rest) = get_host_from_remotes_git [url] ∧
      get_host_from_remotes_hg (url :: rest) = get_host_from_remotes_hg [url]) ∧
    (∀ url : String, pyInStr "git@".data url.data = true →
      get_host_from_remotes_git [url] =
        ((sshHostCapture ':' url.data).map String.mk).map
          (fun n => (pySplitChar '.' n).headD "")) ∧
    (∀ url : String, pyInStr "git@".data url.data = false →
      get_host_from_remotes_git [url] =
        some ((pySplitChar '.' (urlparseNetloc url)).headD "")) ∧
    (∀ url : String, pyInStr "hg@".data url.data = true →
      get_host_from_remotes_hg [url] =
        ((sshHostCapture '.' url.data).map String.mk).map
          (fun n =>
            (pySplitChar '@' ((pySplitChar '.' n).headD "")).getLast?.getD "")) ∧
    (∀ url : String, pyInStr "hg@".data url.data = false →
      get_host_from_remotes_hg [url] =
        some ((pySplitChar '@'
          ((pySplitChar '.' (urlparseNetloc url)).headD "")).getLast?.getD "")) := by
  refine ⟨⟨rfl, rfl⟩, fun url rest => ⟨rfl, rfl⟩, ?_, ?_, ?_, ?_⟩ <;>
    intro url h <;>
      simp [get_host_from_remotes_git, get_host_from_remotes_hg, h]

/-- Witness for C8 at the concrete remote `git@github.com:user/repo`, the
SSH-marker hypothesis discharged by evaluation. -/
theorem C8_host_resolution_witness :
    get_host_from_remotes_git ["git@github.com:user/repo"] =
      ((sshHostCapture ':' "git@github.com:user/repo".data).map String.mk).map
        (fun n => (pySplitChar '.' n).headD "") :=
  C8_host_resolution.2.2.1 "git@github.com:user/repo" (by decide)

/-- C9: `check_shortlog` on the empty shortlog hits `shortlog[-1]` with no
guard — modelled as the `none` outcome — for every parameter setting, and
the `run` entry point reaches that state: every commit message that begins
with a newline yields an empty shortlog, and a message such as
`"\nAnother line."` passes the nonemptiness gate so the empty shortlog is
really handed to `check_shortlog`. -/
theorem C9_empty_shortlog_crash :
    (∀ msg : String, msg.data.head? = some '\n' → runShortlog msg = "") ∧
    (∀ (imper : String → Option String) (len : Nat)
        (rx : Option (String × (String → Bool))) (tp : Option Bool)
        (ic wc : Bool),
      check_shortlog imper "" len rx tp ic wc = none) ∧
    runInvokesChecks "\nAnother line." = true ∧
    runShortlog "\nAnother line." = "" := by
  refine ⟨?_, fun imper len rx tp ic wc => rfl, by decide, by decide⟩
  intro msg h
  have hp := rstrip_isPrefix msg
  rcases hst : (pyRstripNewlines msg).data with _ | ⟨c, t⟩
  · have he : pyRstripNewlines msg = "" := by
      cases hq : pyRstripNewlines msg with
      | mk d => rw [hq] at hst; simp at hst; simp [hst]
    simp [runShortlog, hst, he]
  · have hc : c = '\n' := by
      rw [hst] at hp
      obtain ⟨u, hu⟩ := hp
      have h3 : msg.data.head? = some c := by rw [← hu]; rfl
      rw [h] at h3
      exact (Option.some.inj h3).symm
    subst hc
    simp [runShortlog, hst, List.findIdx?]

/-- Witness for C9 at the concrete message `"\nBody text"`, its leading
newline discharged by evaluation. -/
theorem C9_empty_shortlog_crash_witness :
    runShortlog "\nBody text" = "" ∧
    check_shortlog (fun _ => none) "" 50 none none true true = none :=
  ⟨C9_empty_shortlog_crash.1 "\nBody text" (by decide),
   C9_empty_shortlog_crash.2.1 (fun _ => none) 50 none none true true⟩

/-- C10 (amended): with the WIP check enabled (default length, no regex,
no trailing-period setting), `check_shortlog` emits the work-in-progress
finding iff the shortlog is nonempty and `wip` occurs, case-insensitively,
within the first four characters of the scanned text — which is the
portion of the shortlog after its first colon when the imperative check is
enabled and a colon exists, and the whole shortlog otherwise. -/
theorem C10_wip_check_scanned_text (imper : String → Option String)
    (shortlog : String) (impCheck : Bool) :
    (∃ fs, check_shortlog imper shortlog 50 none none impCheck true = some fs ∧
        wipMessage ∈ fs) ↔
      shortlog ≠ "" ∧
        wipInFirstFour (if impCheck then colonTail shortlog else shortlog) =
          true := by
  rcases hgl : shortlog.data.getLast? with _ | lastC
  · have hs : shortlog = "" := by
      cases hq : shortlog with
      | mk d =>
        cases d with
        | nil => rfl
        | cons a l => rw [hq] at hgl; simp at hgl
    subst hs
    simp [check_shortlog]
  · have hs : shortlog ≠ "" := by
      intro h
      rw [h] at hgl
      simp at hgl
    cases impCheck with
    | false =>
      rcases hw : wipInFirstFour shortlog with _ | _ <;>
        simp [check_shortlog, hgl, hw, hs,
          (lengthMessage_ne_wip shortlog.length 50).symm]
    | true =>
      rcases himp : imper (colonTail shortlog) with _ | w
      · rcases hw : wipInFirstFour (colonTail shortlog) with _ | _ <;>
          simp [check_shortlog, hgl, himp, hw, hs,
            (lengthMessage_ne_wip shortlog.length 50).symm]
      · rcases hw : wipInFirstFour (colonTail shortlog) with _ | _ <;>
          simp [check_shortlog, hgl, himp, hw, hs,
            (lengthMessage_ne_wip shortlog.length 50).symm,
            (imperativeMessage_ne_wip w).symm]

/-- Witness for C10: the theorem applied at the concrete oracle, shortlog
`fix: wip` and enabled imperative check. -/
theorem C10_wip_check_scanned_text_witness :
    (∃ fs, check_shortlog (fun _ => none) "fix: wip" 50 none none true true =
        some fs ∧ wipMessage ∈ fs) ↔
      ("fix: wip" : String) ≠ "" ∧
        wipInFirstFour
          (if true then colonTail "fix: wip" else "fix: wip") = true :=
  C10_wip_check_scanned_text (fun _ => none) "fix: wip" true
